import Mathlib

/-!
Shallow embedding of the tool/request core of the adk-go repository
(`tool/function.go` and the `adk` package's `LLMRequest`), together with
proofs about its behaviour.

Modelling conventions:
* The external `jsonschema` engine (MCP go-sdk) is the spec's opaque
  oracle: schema documents are opaque artifacts, and the operations
  `jsonschema.For[T]` and `Schema.Resolve` are passed in as oracle
  parameters.
* Go panics are modelled explicitly: a Go function of result type `R`
  becomes a Lean function into `Except GoPanic R`, and a function that
  installs no `recover` propagates the inner panic to its own outer
  `Except GoPanic` layer.
* A nil Go pointer/interface value becomes `none` of an `Option`.
* The Go map `LLMRequest.Tools` is modelled as an insertion-ordered
  association list with unique keys (the code checks for duplicates
  before every insert, so uniqueness is an invariant, proved below).
-/

/-- A Go panic value (the argument of `panic(...)`), carried by the outer
`Except` layer of a function that can fault at run time. -/
structure GoPanic where
  msg : String
  deriving Repr, DecidableEq

/-- An opaque JSON-schema document of the external `jsonschema` engine
(the spec's schema oracle); its contents are never inspected by this core. -/
structure Schema where
  doc : String
  deriving Repr, DecidableEq

/-- A resolved schema artifact (`jsonschema.Resolved`); `schema` models the
`Resolved.Schema()` accessor returning the underlying schema document. -/
structure Resolved where
  schema : Schema
  deriving Repr, DecidableEq

/-- Errors of the schema engine and of tool construction.
`wrap msg e` models Go's `fmt.Errorf("msg: %w", e)`. -/
inductive SchemaErr where
  | inferFail (msg : String)
  | wrap (msg : String) (e : SchemaErr)
  deriving Repr, DecidableEq

/-- Conversion errors of the value converter, keyed by the offending
field path. -/
inductive ConvErr where
  | missingField (path : String)
  | typeMismatch (path : String)
  deriving Repr, DecidableEq

/-- A JSON-like scalar value of an untyped document. -/
inductive JValue where
  | jnum (n : Int)
  | jstr (s : String)
  | jbool (b : Bool)
  deriving Repr, DecidableEq

/-- An untyped key-value document (`map[string]any`), the wire shape of
tool arguments and results. -/
abbrev Doc := List (String × JValue)

/-- A model-facing function declaration (`genai.FunctionDeclaration`). -/
structure FunctionDeclaration where
  Name : String
  Description : String
  ParametersJsonSchema : Option Schema
  ResponseJsonSchema : Option Schema
  deriving Repr, DecidableEq

/-- A registered tool as the request registry sees it (the `adk.Tool`
interface): its name, and the function declaration it offers, `none` when
the tool is not a function tool or its declaration is nil. A nil interface
value is modelled as `none : Option RTool` at call sites. -/
structure RTool where
  name : String
  decl : Option FunctionDeclaration
  deriving Repr, DecidableEq

/-- Registration errors raised by `LLMRequest.AppendTools`: a nil or
nameless tool at batch index `i`, or a duplicate name at batch index `i`. -/
inductive RegErr where
  | noName (i : Nat)
  | duplicate (i : Nat) (name : String)
  deriving Repr, DecidableEq

/-- The mutable per-turn request state touched by the builder operations:
the name-keyed tool registry (`LLMRequest.Tools`), the declared-tool list
of the generation configuration (`GenerateConfig.Tools`, flattened to the
declarations it carries), and the system-instruction text
(`GenerateConfig.SystemInstruction`, the text of its single part; `none`
models a nil content). -/
structure LLMRequest where
  Tools : List (String × RTool)
  GCTools : List FunctionDeclaration
  SystemInstruction : Option String
  deriving Repr, DecidableEq

/-- The zero-value request with an initialized (empty) generation
configuration: no tools, no declared tools, no system instruction. -/
def emptyLLMRequest : LLMRequest :=
  { Tools := [], GCTools := [], SystemInstruction := none }

/-- Go's `strings.Join(elems, sep)`: concatenation with `sep` between
consecutive elements. -/
def goJoin (sep : String) : List String → String
  | [] => ""
  | [x] => x
  | x :: y :: xs => x ++ sep ++ goJoin sep (y :: xs)

/-- `LLMRequest.AppendInstructions` from the source: a no-op on zero
instructions; otherwise the instructions are joined with a blank line and
the result is appended to any existing non-empty system instruction,
separated by a blank line, or becomes the system instruction. -/
def LLMRequest.AppendInstructions (r : LLMRequest) (instructions : List String) : LLMRequest :=
  match instructions with
  | [] => r
  | _ :: _ =>
    let inst := goJoin "\n\n" instructions
    match r.SystemInstruction with
    | some current =>
      if current = "" then { r with SystemInstruction := some inst }
      else { r with SystemInstruction := some (current ++ "\n\n" ++ inst) }
    | none => { r with SystemInstruction := some inst }

/-- The loop body of `LLMRequest.AppendTools`, threading the batch index
`i`. Mutations made before a failing element persist, exactly as in the
source, where the method returns mid-loop on a pointer receiver it has
already mutated. -/
def appendToolsLoop (r : LLMRequest) (i : Nat) :
    List (Option RTool) → LLMRequest × Option RegErr
  | [] => (r, none)
  | t :: rest =>
    match t with
    | none => (r, some (.noName i))
    | some tool =>
      if tool.name = "" then (r, some (.noName i))
      else if (r.Tools.lookup tool.name).isSome then (r, some (.duplicate i tool.name))
      else
        let r1 := { r with Tools := r.Tools ++ [(tool.name, tool)] }
        let r2 :=
          match tool.decl with
          | some d => { r1 with GCTools := r1.GCTools ++ [d] }
          | none => r1
        appendToolsLoop r2 (i + 1) rest

/-- `LLMRequest.AppendTools` from the source: for each tool in order,
reject a nil tool or an empty name, reject a duplicate of a name already
registered, otherwise insert into the registry and, when the tool offers a
non-nil declaration, append it to the generation configuration's
declared-tool list. Returns the (possibly mid-way mutated) request and the
error, if any. -/
def LLMRequest.AppendTools (r : LLMRequest) (tools : List (Option RTool)) :
    LLMRequest × Option RegErr :=
  appendToolsLoop r 0 tools

/-- `FunctionToolConfig` from the source: name, description, and the two
optional schema overrides. -/
structure FunctionToolConfig where
  Name : String
  Description : String
  InputSchema : Option Schema
  OutputSchema : Option Schema
  deriving Repr, DecidableEq

/-- The `Function[TArgs, TResults]` handler shape. The Go handler returns
only `TResults`; the `Except GoPanic` layer models the ever-present
possibility that a Go function panics (the cancellation context is out of
scope and elided). -/
def Function (TArgs TResults : Type) : Type :=
  TArgs → Except GoPanic TResults

/-- `resolvedSchema[T]` from the source, parametrized by the schema
oracle: `forT` models `jsonschema.For[T]()` for the type `T` at hand, and
`resolveOracle` models `Schema.Resolve(nil)`. An override, when present,
is resolved directly and the inference oracle is never consulted. -/
def resolvedSchema (forT : Except SchemaErr Schema)
    (resolveOracle : Schema → Except SchemaErr Resolved)
    (override : Option Schema) : Except SchemaErr Resolved :=
  match override with
  | some o => resolveOracle o
  | none =>
    match forT with
    | .error e => .error e
    | .ok schema => resolveOracle schema

/-- `FunctionTool[TArgs, TResults]` from the source: the config, the two
resolved schemas (nullable pointers, hence `Option`), and the handler. -/
structure FunctionTool (TArgs TResults : Type) where
  cfg : FunctionToolConfig
  inputSchema : Option Resolved
  outputSchema : Option Resolved
  handler : Function TArgs TResults

/-- `FunctionTool.Name`: pure accessor of the immutable config. -/
def FunctionTool.Name (f : FunctionTool TArgs TResults) : String :=
  f.cfg.Name

/-- `FunctionTool.Description`: pure accessor of the immutable config. -/
def FunctionTool.Description (f : FunctionTool TArgs TResults) : String :=
  f.cfg.Description

/-- `NewFunctionTool` from the source: resolve the input schema from
`TArgs` (or the override), then the output schema from `TResults` (or the
override); either failure aborts construction with a wrapped error, and
only when both succeed is the tool value assembled. -/
def NewFunctionTool (forTArgs forTResults : Except SchemaErr Schema)
    (resolveOracle : Schema → Except SchemaErr Resolved)
    (cfg : FunctionToolConfig) (handler : Function TArgs TResults) :
    Except SchemaErr (FunctionTool TArgs TResults) :=
  match resolvedSchema forTArgs resolveOracle cfg.InputSchema with
  | .error e => .error (.wrap "failed to infer input schema" e)
  | .ok ischema =>
    match resolvedSchema forTResults resolveOracle cfg.OutputSchema with
    | .error e => .error (.wrap "failed to infer output schema" e)
    | .ok oschema =>
      .ok { cfg := cfg
            inputSchema := some ischema
            outputSchema := some oschema
            handler := handler }

/-- Alias for the declaration record, usable where the method name
`FunctionTool.FunctionDeclaration` would shadow the structure's name. -/
abbrev FuncDecl := FunctionDeclaration

/-- `FunctionTool.FunctionDeclaration` from the source: a declaration
built from name and description, with the parameters (resp. response)
schema filled in exactly when the corresponding resolved schema is
non-nil. The Go method always returns a non-nil pointer. -/
def FunctionTool.FunctionDeclaration (f : FunctionTool TArgs TResults) :
    FuncDecl :=
  let base : FuncDecl :=
    { Name := f.Name
      Description := f.Description
      ParametersJsonSchema := none
      ResponseJsonSchema := none }
  let withIn :=
    match f.inputSchema with
    | some r => { base with ParametersJsonSchema := some r.schema }
    | none => base
  match f.outputSchema with
  | some r => { withIn with ResponseJsonSchema := some r.schema }
  | none => withIn

/-- `FunctionTool.Run` from the source, parametrized by the two
directions of `typeutil.ConvertToWithJSONSchema` for the types at hand:
convert the args document against the input schema (returning `(nil, err)`
— here `.ok (.error e)` — on failure), invoke the handler, and convert the
handler's result back against the output schema. The source installs no
`recover`, so a handler panic propagates out of `Run` (the outer `.error`
layer) instead of being returned as an error value. -/
def FunctionTool.Run
    (convertIn : Option Resolved → Doc → Except ConvErr TArgs)
    (convertOut : Option Resolved → TResults → Except ConvErr Doc)
    (f : FunctionTool TArgs TResults) (args : Doc) :
    Except GoPanic (Except ConvErr Doc) :=
  match convertIn f.inputSchema args with
  | .error e => .ok (.error e)
  | .ok input =>
    match f.handler input with
    | .error p => .error p
    | .ok output => .ok (convertOut f.outputSchema output)

/-- Modelled from the spec: the schema oracle's resolution step
(`Schema.Resolve`), missing from src/ (it lives in the external
jsonschema engine). Spec 4.2: resolution adopts the supplied document
verbatim and produces an immutable artifact exposing that document; this
concrete oracle, used for witnesses, resolves every document. -/
def resolveVerbatim (s : Schema) : Except SchemaErr Resolved :=
  .ok { schema := s }

/-- The typed argument shape of the spec's `add` scenario:
a record with integer fields `A` and `B`. -/
structure AddArgs where
  A : Int
  B : Int
  deriving Repr, DecidableEq

/-- The typed result shape of the spec's `add` scenario:
a record with the integer field `Sum`. -/
structure AddRes where
  Sum : Int
  deriving Repr, DecidableEq

/-- Modelled from the spec: the document-to-typed-value direction of
`typeutil.ConvertToWithJSONSchema` (package `internal/typeutil`, not under
src/) at the `AddArgs` shape. Spec 4.3: walk the schema's required fields
(`A`, `B`, both integers), populate each from the document by name,
produce a field-path-keyed error on a missing field or a type mismatch. -/
def convAddArgs (_ : Option Resolved) (d : Doc) : Except ConvErr AddArgs :=
  match d.lookup "A" with
  | some (.jnum a) =>
    match d.lookup "B" with
    | some (.jnum b) => .ok { A := a, B := b }
    | some _ => .error (.typeMismatch "B")
    | none => .error (.missingField "B")
  | some _ => .error (.typeMismatch "A")
  | none => .error (.missingField "A")

/-- Modelled from the spec: the typed-value-to-document direction of
`typeutil.ConvertToWithJSONSchema` at the `AddRes` shape. Spec 4.3: walk
the typed value's fields per the declared output shape and emit a document
with exactly the schema's fields (here the single field `Sum`). -/
def convAddRes (_ : Option Resolved) (v : AddRes) : Except ConvErr Doc :=
  .ok [("Sum", .jnum v.Sum)]

/-- The handler of the spec's `add` scenario: `(ctx, a) -> a.A + a.B`
(a plain Go function; it never panics). -/
def addHandler : Function AddArgs AddRes :=
  fun a => .ok { Sum := a.A + a.B }

/-- The adapter of the spec's `add` scenario, built by `NewFunctionTool`
with inference oracles for the two shapes and the verbatim resolver. -/
def addTool : FunctionTool AddArgs AddRes :=
  { cfg := { Name := "add", Description := "adds two integers"
             InputSchema := none, OutputSchema := none }
    inputSchema := some { schema := { doc := "object A B int" } }
    outputSchema := some { schema := { doc := "object Sum int" } }
    handler := addHandler }

/-- A handler of the `add` shapes whose invocation raises an uncontrolled
runtime fault: it panics unconditionally. -/
def panickyHandler : Function AddArgs AddRes :=
  fun _ => .error { msg := "boom" }

/-- The `add` adapter with its handler replaced by the panicking one. -/
def panickyTool : FunctionTool AddArgs AddRes :=
  { addTool with handler := panickyHandler }

/-- Apply a sequence of `AppendTools` batches to a request, keeping the
state each call leaves behind whether it succeeded or failed, exactly as a
caller holding the request pointer would. -/
def applyBatches (r : LLMRequest) : List (List (Option RTool)) → LLMRequest
  | [] => r
  | b :: bs => applyBatches (r.AppendTools b).1 bs

/-- The registry/declaration synchronization invariant of a request:
every registry entry is keyed by its tool's name, names are non-empty and
pairwise distinct, and the generation configuration's declared-tool list
is exactly the list of non-nil declarations of the registered tools, in
registration order. -/
def RegistryInv (r : LLMRequest) : Prop :=
  (∀ p ∈ r.Tools, p.2.name = p.1 ∧ p.1 ≠ "") ∧
  (r.Tools.map Prod.fst).Nodup ∧
  r.GCTools = r.Tools.filterMap (fun p => p.2.decl)

instance (r : LLMRequest) : Decidable (RegistryInv r) := by
  unfold RegistryInv
  infer_instance

/-- A concrete function declaration used in concrete registration runs. -/
def declA1 : FunctionDeclaration :=
  { Name := "a", Description := "first tool named a"
    ParametersJsonSchema := none, ResponseJsonSchema := none }

/-- A second concrete declaration, distinct from `declA1`. -/
def declA2 : FunctionDeclaration :=
  { Name := "a", Description := "second tool named a"
    ParametersJsonSchema := none, ResponseJsonSchema := none }

/-- A concrete tool named `"a"` offering `declA1`. -/
def toolA1 : RTool := { name := "a", decl := some declA1 }

/-- A second, distinct concrete tool also named `"a"`, offering `declA2`. -/
def toolA2 : RTool := { name := "a", decl := some declA2 }

/-- C1: the claim states that `AppendTools` is batch-atomic — after a call
that returns an error the registry contains none of the batch's tools and
the declared-tool list is unchanged, so with two tools sharing a name the
registry afterward contains neither. Against the code this fails: on the
batch `[toolA1, toolA2]`, both named `"a"`, the call returns the duplicate
error yet leaves the first tool registered and its declaration in the
generation configuration's declared-tool list. -/
theorem appendTools_progressive_on_duplicate :
    (emptyLLMRequest.AppendTools [some toolA1, some toolA2]).2 =
      some (.duplicate 1 "a") ∧
    (emptyLLMRequest.AppendTools [some toolA1, some toolA2]).1.Tools =
      [("a", toolA1)] ∧
    (emptyLLMRequest.AppendTools [some toolA1, some toolA2]).1.GCTools =
      [declA1] := by
  decide

/-- C2: the claim states that `Run` intercepts a handler panic at the
adapter boundary and returns it as a typed execution error. Against the
code this fails: `Run` installs no recovery, so on a handler that panics
the fault propagates uncaught out of `Run` (the outer `.error` layer of
the modelled outcome) instead of being returned as an error value. -/
theorem run_propagates_handler_panic :
    FunctionTool.Run convAddArgs convAddRes panickyTool
        [("A", .jnum 2), ("B", .jnum 3)] =
      .error { msg := "boom" } := by
  rfl

/-- C4: `AppendTools` called with a single nil tool, or a single tool
whose name is the empty string, returns a registration error and leaves
the whole request — registry and declared-tool list included — unchanged. -/
theorem appendTools_rejects_nil_and_nameless (r : LLMRequest)
    (d : Option FunctionDeclaration) :
    r.AppendTools [none] = (r, some (.noName 0)) ∧
    r.AppendTools [some { name := "", decl := d }] = (r, some (.noName 0)) := by
  constructor <;> rfl

/-- Witness for C4 at the empty request and a declaration-free tool. -/
theorem appendTools_rejects_nil_and_nameless_witness :
    emptyLLMRequest.AppendTools [none] = (emptyLLMRequest, some (.noName 0)) ∧
    emptyLLMRequest.AppendTools [some { name := "", decl := none }] =
      (emptyLLMRequest, some (.noName 0)) :=
  appendTools_rejects_nil_and_nameless emptyLLMRequest none

/-- C7: `NewFunctionTool` succeeds exactly when both schema resolutions
succeed; when the input (resp. output) resolution fails, construction
returns that failure wrapped in the corresponding inference message, and
no tool value is produced. -/
theorem newFunctionTool_ok_iff_schemas_resolve {TArgs TResults : Type}
    (forA forR : Except SchemaErr Schema)
    (res : Schema → Except SchemaErr Resolved)
    (cfg : FunctionToolConfig) (hd : Function TArgs TResults) :
    ((∃ t, NewFunctionTool forA forR res cfg hd = .ok t) ↔
      ((∃ ri, resolvedSchema forA res cfg.InputSchema = .ok ri) ∧
       (∃ ro, resolvedSchema forR res cfg.OutputSchema = .ok ro))) ∧
    (∀ e, resolvedSchema forA res cfg.InputSchema = .error e →
      NewFunctionTool forA forR res cfg hd =
        .error (.wrap "failed to infer input schema" e)) ∧
    (∀ ri e, resolvedSchema forA res cfg.InputSchema = .ok ri →
      resolvedSchema forR res cfg.OutputSchema = .error e →
      NewFunctionTool forA forR res cfg hd =
        .error (.wrap "failed to infer output schema" e)) := by
  cases h1 : resolvedSchema forA res cfg.InputSchema with
  | error e1 =>
    refine ⟨⟨?_, ?_⟩, ?_, ?_⟩
    · rintro ⟨t, ht⟩
      unfold NewFunctionTool at ht
      rw [h1] at ht
      simp at ht
    · rintro ⟨⟨ri, hri⟩, -⟩
      simp at hri
    · intro e he
      injection he with he
      subst he
      unfold NewFunctionTool
      rw [h1]
    · intro ri e hri _
      simp at hri
  | ok ri =>
    cases h2 : resolvedSchema forR res cfg.OutputSchema with
    | error e2 =>
      refine ⟨⟨?_, ?_⟩, ?_, ?_⟩
      · rintro ⟨t, ht⟩
        unfold NewFunctionTool at ht
        rw [h1, h2] at ht
        simp at ht
      · rintro ⟨-, ⟨ro, hro⟩⟩
        simp at hro
      · intro e he
        simp at he
      · intro ri2 e _ hro
        injection hro with hro
        subst hro
        unfold NewFunctionTool
        rw [h1, h2]
    | ok ro =>
      refine ⟨⟨?_, ?_⟩, ?_, ?_⟩
      · intro _
        exact ⟨⟨ri, rfl⟩, ⟨ro, rfl⟩⟩
      · intro _
        refine ⟨{ cfg := cfg, inputSchema := some ri, outputSchema := some ro,
                  handler := hd }, ?_⟩
        unfold NewFunctionTool
        rw [h1, h2]
      · intro e he
        simp at he
      · intro ri2 e _ hro
        simp at hro

/-- Witness for C7 at a failing input-inference oracle: construction
returns the wrapped inference failure. -/
theorem newFunctionTool_ok_iff_schemas_resolve_witness :
    NewFunctionTool (.error (.inferFail "unsupported shape"))
        (.ok { doc := "object Sum int" }) resolveVerbatim
        { Name := "add", Description := "adds two integers"
          InputSchema := none, OutputSchema := none } addHandler =
      .error (.wrap "failed to infer input schema"
        (.inferFail "unsupported shape")) :=
  (newFunctionTool_ok_iff_schemas_resolve (.error (.inferFail "unsupported shape"))
    (.ok { doc := "object Sum int" }) resolveVerbatim
    { Name := "add", Description := "adds two integers"
      InputSchema := none, OutputSchema := none } addHandler).2.1
    (.inferFail "unsupported shape") rfl

/-- C8: when an output-schema override is supplied and resolvable,
construction adopts it verbatim: the constructed tool's resolved output
schema is exactly the resolution of the override, and its declaration's
response schema is the override's document — independently of the
output-type inference oracle `forR`, which is never consulted (it may
even be a failing oracle), so no compatibility check against the actual
type shape takes place. -/
theorem override_adopted_verbatim {TArgs TResults : Type}
    (forA forR : Except SchemaErr Schema)
    (res : Schema → Except SchemaErr Resolved)
    (cfg : FunctionToolConfig) (hd : Function TArgs TResults)
    (o : Schema) (ri r2 : Resolved)
    (hover : cfg.OutputSchema = some o)
    (hres : res o = .ok r2)
    (hin : resolvedSchema forA res cfg.InputSchema = .ok ri) :
    NewFunctionTool forA forR res cfg hd =
      .ok { cfg := cfg, inputSchema := some ri, outputSchema := some r2,
            handler := hd } ∧
    ∀ t, NewFunctionTool forA forR res cfg hd = .ok t →
      t.FunctionDeclaration.ResponseJsonSchema = some r2.schema := by
  have hout : resolvedSchema forR res cfg.OutputSchema = .ok r2 := by
    unfold resolvedSchema
    rw [hover]
    exact hres
  have hok : NewFunctionTool forA forR res cfg hd =
      .ok { cfg := cfg, inputSchema := some ri, outputSchema := some r2,
            handler := hd } := by
    unfold NewFunctionTool
    rw [hin, hout]
  refine ⟨hok, ?_⟩
  intro t ht
  rw [hok] at ht
  injection ht with ht
  subst ht
  rfl

/-- A config with explicit overrides for both schemas; the output
override deliberately does not match the `AddRes` result shape. -/
def mismatchCfg : FunctionToolConfig :=
  { Name := "add", Description := "adds two integers"
    InputSchema := some { doc := "override input" }
    OutputSchema := some { doc := "mismatched output override" } }

/-- Witness for C8: with failing inference oracles for both types, a tool
built from `mismatchCfg` still constructs, and its declaration carries the
mismatched override verbatim. -/
theorem override_adopted_verbatim_witness :
    NewFunctionTool (.error (.inferFail "never consulted"))
        (.error (.inferFail "never consulted")) resolveVerbatim mismatchCfg
        addHandler =
      .ok { cfg := mismatchCfg
            inputSchema := some { schema := { doc := "override input" } }
            outputSchema := some { schema := { doc := "mismatched output override" } }
            handler := addHandler } ∧
    ∀ t, NewFunctionTool (.error (.inferFail "never consulted"))
        (.error (.inferFail "never consulted")) resolveVerbatim mismatchCfg
        addHandler = .ok t →
      t.FunctionDeclaration.ResponseJsonSchema =
        some { doc := "mismatched output override" } :=
  override_adopted_verbatim (.error (.inferFail "never consulted"))
    (.error (.inferFail "never consulted")) resolveVerbatim mismatchCfg addHandler
    { doc := "mismatched output override" }
    { schema := { doc := "override input" } }
    { schema := { doc := "mismatched output override" } } rfl rfl rfl

/-- C9: when the input conversion fails, `Run` returns the nil document
together with that conversion error (`.ok (.error e)`, i.e. no panic and
no result document), and the wrapped handler is never invoked: the
outcome is unchanged under replacing the handler by any other handler. -/
theorem run_conversion_failure_no_handler {TArgs TResults : Type}
    (convertIn : Option Resolved → Doc → Except ConvErr TArgs)
    (convertOut : Option Resolved → TResults → Except ConvErr Doc)
    (f : FunctionTool TArgs TResults) (args : Doc) (e : ConvErr)
    (h : convertIn f.inputSchema args = .error e) :
    FunctionTool.Run convertIn convertOut f args = .ok (.error e) ∧
    ∀ hd2 : Function TArgs TResults,
      FunctionTool.Run convertIn convertOut { f with handler := hd2 } args =
        .ok (.error e) := by
  constructor
  · unfold FunctionTool.Run
    rw [h]
  · intro hd2
    unfold FunctionTool.Run
    have hs : ({ f with handler := hd2 } :
        FunctionTool TArgs TResults).inputSchema = f.inputSchema := rfl
    rw [hs, h]

/-- Witness for C9: on the empty document the `add` adapter's input
conversion fails on the missing field `A`; `Run` returns exactly that
error, also after the handler is swapped for the panicking one. -/
theorem run_conversion_failure_no_handler_witness :
    FunctionTool.Run convAddArgs convAddRes addTool [] =
      .ok (.error (.missingField "A")) ∧
    FunctionTool.Run convAddArgs convAddRes
        { addTool with handler := panickyHandler } [] =
      .ok (.error (.missingField "A")) :=
  ⟨(run_conversion_failure_no_handler convAddArgs convAddRes addTool []
      (.missingField "A") rfl).1,
   (run_conversion_failure_no_handler convAddArgs convAddRes addTool []
      (.missingField "A") rfl).2 panickyHandler⟩

/-- C10: every tool successfully returned by `NewFunctionTool` carries
both resolved schemas (`some`, despite the nullable field types), and its
`FunctionDeclaration` — always a non-nil value — carries the tool's name,
description, and both the parameters and the response schema. -/
theorem constructed_tool_declaration_complete {TArgs TResults : Type}
    (forA forR : Except SchemaErr Schema)
    (res : Schema → Except SchemaErr Resolved)
    (cfg : FunctionToolConfig) (hd : Function TArgs TResults)
    (t : FunctionTool TArgs TResults)
    (h : NewFunctionTool forA forR res cfg hd = .ok t) :
    t.inputSchema.isSome = true ∧ t.outputSchema.isSome = true ∧
    t.FunctionDeclaration.Name = cfg.Name ∧
    t.FunctionDeclaration.Description = cfg.Description ∧
    t.FunctionDeclaration.ParametersJsonSchema.isSome = true ∧
    t.FunctionDeclaration.ResponseJsonSchema.isSome = true := by
  unfold NewFunctionTool at h
  cases h1 : resolvedSchema forA res cfg.InputSchema with
  | error e1 =>
    rw [h1] at h
    simp at h
  | ok ri =>
    rw [h1] at h
    cases h2 : resolvedSchema forR res cfg.OutputSchema with
    | error e2 =>
      rw [h2] at h
      simp at h
    | ok ro =>
      rw [h2] at h
      injection h with h
      subst h
      exact ⟨rfl, rfl, rfl, rfl, rfl, rfl⟩

/-- Witness for C10 at the `add` adapter, reconstructed through
`NewFunctionTool` from inference oracles for its two shapes. -/
theorem constructed_tool_declaration_complete_witness :
    addTool.inputSchema.isSome = true ∧ addTool.outputSchema.isSome = true ∧
    addTool.FunctionDeclaration.Name = addTool.cfg.Name ∧
    addTool.FunctionDeclaration.Description = addTool.cfg.Description ∧
    addTool.FunctionDeclaration.ParametersJsonSchema.isSome = true ∧
    addTool.FunctionDeclaration.ResponseJsonSchema.isSome = true :=
  constructed_tool_declaration_complete (.ok { doc := "object A B int" })
    (.ok { doc := "object Sum int" }) resolveVerbatim addTool.cfg addHandler
    addTool rfl

/-- C6: `Run` on the `add` adapter is the conversion pipeline — convert
the document against the input schema (failing with the conversion
error), invoke the handler on the typed value, convert the result back —
and on the document `A = 2, B = 3` it returns `Sum = 5` with no error. -/
theorem run_add_scenario :
    (∀ args : Doc, FunctionTool.Run convAddArgs convAddRes addTool args =
      match convAddArgs addTool.inputSchema args with
      | .error e => .ok (.error e)
      | .ok input =>
        .ok (convAddRes addTool.outputSchema { Sum := input.A + input.B })) ∧
    FunctionTool.Run convAddArgs convAddRes addTool
        [("A", .jnum 2), ("B", .jnum 3)] = .ok (.ok [("Sum", .jnum 5)]) := by
  constructor
  · intro args
    unfold FunctionTool.Run
    cases h : convAddArgs addTool.inputSchema args with
    | error e => rfl
    | ok input => rfl
  · rfl

/-- A string is empty exactly when its length is zero; stated in the
direction the non-emptiness lemmas need. -/
theorem string_eq_empty_of_length_eq_zero (s : String) (h : s.length = 0) :
    s = "" := by
  cases s with
  | mk data =>
    cases data with
    | nil => rfl
    | cons c cs => simp [String.length] at h

/-- Appending anything to a non-empty string on the left stays non-empty. -/
theorem string_append_ne_empty_left (a b : String) (h : a ≠ "") :
    a ++ b ≠ "" := by
  intro hc
  apply h
  have hlen := congrArg String.length hc
  rw [String.length_append] at hlen
  have h0 : ("" : String).length = 0 := rfl
  exact string_eq_empty_of_length_eq_zero a (by omega)

/-- Appending a non-empty string on the right stays non-empty. -/
theorem string_append_ne_empty_right (a b : String) (h : b ≠ "") :
    a ++ b ≠ "" := by
  intro hc
  apply h
  have hlen := congrArg String.length hc
  rw [String.length_append] at hlen
  have h0 : ("" : String).length = 0 := rfl
  exact string_eq_empty_of_length_eq_zero b (by omega)

/-- The join of a non-empty list of non-empty strings is non-empty. -/
theorem goJoin_ne_empty (sep : String) (xs : List String)
    (hne : xs ≠ []) (hmem : "" ∉ xs) : goJoin sep xs ≠ "" := by
  cases xs with
  | nil => exact absurd rfl hne
  | cons x rest =>
    have hx : x ≠ "" := fun hx => hmem (hx ▸ List.mem_cons_self x rest)
    cases rest with
    | nil => exact hx
    | cons y t =>
      exact string_append_ne_empty_left _ _ (string_append_ne_empty_left _ _ hx)

/-- Joining a concatenation of two non-empty lists equals joining each
part and separating the results by the separator. -/
theorem goJoin_append (sep : String) (xs ys : List String)
    (hx : xs ≠ []) (hy : ys ≠ []) :
    goJoin sep (xs ++ ys) = goJoin sep xs ++ sep ++ goJoin sep ys := by
  induction xs with
  | nil => exact absurd rfl hx
  | cons x rest ih =>
    cases rest with
    | nil =>
      cases ys with
      | nil => exact absurd rfl hy
      | cons y t => rfl
    | cons x2 rest2 =>
      have step : goJoin sep ((x :: x2 :: rest2) ++ ys) =
          x ++ sep ++ goJoin sep ((x2 :: rest2) ++ ys) := by
        cases ys with
        | nil => exact absurd rfl hy
        | cons y t => rfl
      rw [step, ih (by simp), goJoin]
      simp only [String.append_assoc]

/-- The system-instruction update rule of `AppendInstructions` as a pure
function of the current instruction text and the joined batch text. -/
def appendInstText (cur : Option String) (inst : String) : String :=
  match cur with
  | some current => if current = "" then inst else current ++ "\n\n" ++ inst
  | none => inst

/-- `AppendInstructions` on a non-empty batch updates exactly the
system-instruction field, by the `appendInstText` rule applied to the
joined batch. -/
theorem appendInstructions_core (r : LLMRequest) (x : String)
    (xs : List String) :
    r.AppendInstructions (x :: xs) =
      { r with
          SystemInstruction :=
            some (appendInstText r.SystemInstruction (goJoin "\n\n" (x :: xs))) } := by
  unfold LLMRequest.AppendInstructions
  cases hsi : r.SystemInstruction with
  | none => simp [appendInstText]
  | some current =>
    by_cases h : current = "" <;> simp [appendInstText, h]

/-- Composing two non-empty-text updates equals one update with the
joined text, provided the first text is non-empty. -/
theorem appendInstText_comp (cur : Option String) (jx jy : String)
    (hjx : jx ≠ "") :
    appendInstText (some (appendInstText cur jx)) jy =
      appendInstText cur (jx ++ "\n\n" ++ jy) := by
  cases cur with
  | none => simp [appendInstText, hjx]
  | some t =>
    by_cases ht : t = ""
    · simp [appendInstText, ht, hjx]
    · have h1 : t ++ ("\n\n" ++ jx) ≠ "" := by
        rw [← String.append_assoc]
        exact string_append_ne_empty_right _ _ hjx
      simp [appendInstText, ht, h1, String.append_assoc]

/-- C3 counterexample: the claim asserts the equivalence for every pair
of instruction lists, but on the empty request the iterated calls with
the empty instruction and then `"B"` yield the text `"B"`, while the
single batch call yields `"\n\nB"` — the two final states differ. -/
theorem appendInstructions_empty_string_not_compositional :
    ((emptyLLMRequest.AppendInstructions [""]).AppendInstructions
        ["B"]).SystemInstruction = some "B" ∧
    (emptyLLMRequest.AppendInstructions ([""] ++ ["B"])).SystemInstruction =
      some "\n\nB" ∧
    (emptyLLMRequest.AppendInstructions [""]).AppendInstructions ["B"] ≠
      emptyLLMRequest.AppendInstructions ([""] ++ ["B"]) := by
  refine ⟨rfl, rfl, ?_⟩
  decide

/-- C3 (amended): for instruction lists whose elements are all non-empty
strings, calling `AppendInstructions` per list is equivalent, in the final
request, to one call with the concatenated list, from any request state;
the claim's instantiation (A then B on the empty request yields the text
A, blank line, B) is the witness below. -/
theorem appendInstructions_batch_eq_iterated (r : LLMRequest)
    (xs ys : List String) (hx : "" ∉ xs) (hy : "" ∉ ys) :
    (r.AppendInstructions xs).AppendInstructions ys =
      r.AppendInstructions (xs ++ ys) := by
  cases xs with
  | nil =>
    rw [List.nil_append]
    rfl
  | cons x xs' =>
    cases ys with
    | nil =>
      rw [List.append_nil]
      rfl
    | cons y ys' =>
      have hjx : goJoin "\n\n" (x :: xs') ≠ "" :=
        goJoin_ne_empty _ _ (by simp) hx
      have hjoin2 : goJoin "\n\n" (x :: (xs' ++ (y :: ys'))) =
          goJoin "\n\n" (x :: xs') ++ "\n\n" ++ goJoin "\n\n" (y :: ys') :=
        goJoin_append "\n\n" (x :: xs') (y :: ys') (by simp) (by simp)
      rw [appendInstructions_core r x xs']
      rw [appendInstructions_core _ y ys']
      rw [show (x :: xs') ++ (y :: ys') = x :: (xs' ++ (y :: ys')) from rfl]
      rw [appendInstructions_core r x (xs' ++ (y :: ys'))]
      rw [hjoin2]
      dsimp only
      rw [appendInstText_comp r.SystemInstruction _ _ hjx]

/-- Witness for C3 (amended), at the claim's own instantiation: on the
empty request, appending "A" then "B" equals the single batch call, and
the final text is A, blank line, B. -/
theorem appendInstructions_batch_eq_iterated_witness :
    ("" ∉ (["A"] : List String)) ∧ ("" ∉ (["B"] : List String)) ∧
    (emptyLLMRequest.AppendInstructions ["A"]).AppendInstructions ["B"] =
      emptyLLMRequest.AppendInstructions (["A"] ++ ["B"]) ∧
    (emptyLLMRequest.AppendInstructions (["A"] ++ ["B"])).SystemInstruction =
      some "A\n\nB" :=
  ⟨by decide, by decide,
   appendInstructions_batch_eq_iterated emptyLLMRequest ["A"] ["B"]
     (by decide) (by decide),
   rfl⟩

/-- A name has a binding in the registry association list exactly when it
occurs among the keys. -/
theorem lookup_isSome_iff_mem_keys (l : List (String × RTool)) (n : String) :
    (l.lookup n).isSome = true ↔ n ∈ l.map Prod.fst := by
  induction l with
  | nil => simp [List.lookup]
  | cons p l ih =>
    obtain ⟨k, v⟩ := p
    by_cases h : n = k
    · subst h
      simp [List.lookup]
    · have hbeq : (n == k) = false := beq_false_of_ne h
      simp only [List.lookup, hbeq]
      rw [ih]
      simp [h]

/-- One `AppendTools` pass preserves the registry invariant, from any
starting index, whether the pass succeeds or stops on an error. -/
theorem appendToolsLoop_preserves_inv (ts : List (Option RTool)) :
    ∀ (r : LLMRequest) (i : Nat), RegistryInv r →
      RegistryInv (appendToolsLoop r i ts).1 := by
  induction ts with
  | nil =>
    intro r i h
    exact h
  | cons t rest ih =>
    intro r i h
    obtain ⟨h1, h2, h3⟩ := h
    cases t with
    | none => exact ⟨h1, h2, h3⟩
    | some tool =>
      simp only [appendToolsLoop]
      split_ifs with hname hdup
      · exact ⟨h1, h2, h3⟩
      · exact ⟨h1, h2, h3⟩
      · have hnotmem : tool.name ∉ r.Tools.map Prod.fst := by
          intro hmem
          exact hdup ((lookup_isSome_iff_mem_keys r.Tools tool.name).2 hmem)
        cases hdecl : tool.decl with
        | some d =>
          apply ih
          refine ⟨?_, ?_, ?_⟩
          · intro p hp
            rcases List.mem_append.1 hp with hp | hp
            · exact h1 p hp
            · rw [List.mem_singleton] at hp
              subst hp
              exact ⟨rfl, hname⟩
          · rw [List.map_append]
            simp only [List.map_cons, List.map_nil]
            rw [List.nodup_append]
            exact ⟨h2, List.nodup_singleton _,
              fun a ha hb => hnotmem ((List.mem_singleton.1 hb) ▸ ha)⟩
          · rw [List.filterMap_append, ← h3]
            simp [hdecl]
        | none =>
          apply ih
          refine ⟨?_, ?_, ?_⟩
          · intro p hp
            rcases List.mem_append.1 hp with hp | hp
            · exact h1 p hp
            · rw [List.mem_singleton] at hp
              subst hp
              exact ⟨rfl, hname⟩
          · rw [List.map_append]
            simp only [List.map_cons, List.map_nil]
            rw [List.nodup_append]
            exact ⟨h2, List.nodup_singleton _,
              fun a ha hb => hnotmem ((List.mem_singleton.1 hb) ▸ ha)⟩
          · rw [List.filterMap_append, ← h3]
            simp [hdecl]

/-- Any sequence of `AppendTools` calls preserves the registry invariant. -/
theorem applyBatches_preserves_inv (bs : List (List (Option RTool))) :
    ∀ r, RegistryInv r → RegistryInv (applyBatches r bs) := by
  induction bs with
  | nil =>
    intro r h
    exact h
  | cons b bs ih =>
    intro r h
    exact ih _ (appendToolsLoop_preserves_inv b r 0 h)

/-- C5: on every request reachable from the empty request by any sequence
of `AppendTools` calls — successful or failing — the registry keys are
exactly the tools' names, non-empty and pairwise distinct, and the
generation configuration's declared-tool list is exactly the list of
non-nil declarations of the registered tools, kept in sync at each
append (tools without a declaration contribute nothing). -/
theorem registry_invariant_reachable (bs : List (List (Option RTool))) :
    RegistryInv (applyBatches emptyLLMRequest bs) :=
  applyBatches_preserves_inv bs emptyLLMRequest (by decide)

/-- Witness for C5 on a concrete run containing a failing duplicate
batch, a nil tool, and a declaration-less tool. -/
theorem registry_invariant_reachable_witness :
    RegistryInv (applyBatches emptyLLMRequest
      [[some toolA1, some toolA2], [none],
       [some { name := "b", decl := none }]]) :=
  registry_invariant_reachable
    [[some toolA1, some toolA2], [none], [some { name := "b", decl := none }]]
